import Mathlib

/-!
# Quote poller (`service/main.go`)

A shallow embedding of the three functions of `service/main.go`:
`loadConfig`, `queryAPI` and `main`.

Everything the program obtains from outside the repository (the process
environment, the file system, the TOML and JSON decoders and the HTTP server)
is collected in a `World` value that the functions receive explicitly.  The
loop of `main` is driven by the sequence of signals its `select` serves; the
Go ticker and timer that produce this sequence are modelled by `clock`.
Effects (standard output, the log, the file-system operations and the GET
requests issued) are returned as lists, in program order.
-/

namespace Service

/-! ## Data model -/

/-- Go `error` value: its message and whether `os.IsNotExist` holds of it. -/
structure Error where
  msg : String
  notExist : Bool
deriving DecidableEq, Repr

/-- Source: `var defaultEndpoint`. -/
def defaultEndpoint : String := "http://thesimpsonsquoteapi.glitch.me/quotes"

/-- Source: `const configFile`. -/
def configFile : String := "config.toml"

/-- Source: `type Config struct`. -/
structure Config where
  Endpoint : String
deriving DecidableEq, Repr

/-- Source: `type SimpsonsQuote struct`. -/
structure SimpsonsQuote where
  Quote : String
  Character : String
  Image : String
  CharacterDirection : String
deriving DecidableEq, Repr

/-- The part of `*http.Response` the program looks at.  `Body` is the result
of `io.ReadAll(resp.Body)`. -/
structure Response where
  StatusCode : Int
  Status : String
  Body : Except Error String

/-- Everything outside the repository.  `environ` is the process environment,
`join` is `filepath.Join`, `stat` is the error of `os.Stat` (`none` for `nil`),
`readFile` is `os.ReadFile`, `parseToml` is the go-toml decoder restricted to
the one field of `Config`: `some v` when the decoder binds a key of the
document to `Endpoint` (the key `endpoint`, or another spelling the decoder
accepts for that field, such as `ENDPOINT`), `none` when it binds no key,
`httpGet n` is the answer to the `n`-th call of `http.Get` (counted from 0) and
`parseJson` is `json.Unmarshal` into a `[]SimpsonsQuote`. -/
structure World where
  environ : String → Option String
  join : String → String → String
  stat : String → Option Error
  readFile : String → Except Error String
  parseToml : String → Except Error (Option String)
  httpGet : Nat → String → Except Error Response
  parseJson : String → Except Error (List SimpsonsQuote)

/-- Go `os.Getenv`: the value of the variable, the empty string when unset. -/
def Getenv (w : World) (key : String) : String :=
  (w.environ key).getD ""

/-- Go `toml.Unmarshal(data, &config)`: a key the decoder binds to the field
overwrites it; when no key is bound the field is left as it was. -/
def tomlUnmarshal (w : World) (data : String) (config : Config) : Config × Option Error :=
  match w.parseToml data with
  | .error err => (config, some err)
  | .ok none => (config, none)
  | .ok (some v) => ({ config with Endpoint := v }, none)

/-! ## loadConfig -/

/-- File-system level operations performed by `loadConfig`. -/
inductive FsOp where
  | stat (path : String)
  | readFile (path : String)
  | unmarshal (data : String)
deriving DecidableEq, Repr

/-- Result of `loadConfig`: the two Go return values, the lines logged and the
operations performed, in order. -/
structure LoadResult where
  config : Config
  err : Option Error
  log : List String
  ops : List FsOp
deriving DecidableEq, Repr

/-- Source: `func loadConfig() (Config, error)`. -/
def loadConfig (w : World) : LoadResult :=
  let config : Config := { Endpoint := "" }
  let snapDir := Getenv w "SNAP_DATA"
  if snapDir = "" then
    { config := { config with Endpoint := defaultEndpoint }
      err := none
      log := ["SNAP_DATA environment variable is not set, using default endpoint"]
      ops := [] }
  else
    let configPath := w.join snapDir configFile
    match w.stat configPath with
    | some err =>
      if err.notExist then
        { config := { config with Endpoint := defaultEndpoint }
          err := none
          log := ["config.toml not found in " ++ snapDir ++ ", using default endpoint"]
          ops := [.stat configPath] }
      else
        { config := config, err := some err, log := [], ops := [.stat configPath] }
    | none =>
      match w.readFile configPath with
      | .error err =>
        { config := config, err := some err, log := []
          ops := [.stat configPath, .readFile configPath] }
      | .ok data =>
        let r := tomlUnmarshal w data config
        { config := r.1, err := r.2, log := []
          ops := [.stat configPath, .readFile configPath, .unmarshal data] }

/-! ## queryAPI -/

/-- How a call of `queryAPI` ends: it returns to its caller, it ends the
process through `log.Fatalf`, or it faults on the index expression `q[0]`. -/
inductive Exit where
  | returned
  | fatal
  | indexFault
deriving DecidableEq, Repr

/-- Observable result of one call of `queryAPI`. -/
structure QueryResult where
  stdout : List String
  log : List String
  exit : Exit
  bodyClosed : Bool
deriving DecidableEq, Repr

/-- Go `fmt.Printf("\"%s\" - %s\n", quote.Quote, quote.Character)`. -/
def formatQuote (quote : SimpsonsQuote) : String :=
  "\"" ++ quote.Quote ++ "\" - " ++ quote.Character ++ "\n"

/-- Source: `func queryAPI(endpoint string)`; `n` is the number of GET requests
issued before this one. -/
def queryAPI (w : World) (n : Nat) (endpoint : String) : QueryResult :=
  match w.httpGet n endpoint with
  | .error err =>
    { stdout := [], log := ["error querying API: " ++ err.msg], exit := .returned
      bodyClosed := false }
  | .ok resp =>
    if resp.StatusCode > 399 then
      { stdout := []
        log := ["unexpected response " ++ toString resp.StatusCode ++ " - " ++ resp.Status]
        exit := .fatal
        bodyClosed := false }
    else
      match resp.Body with
      | .error err =>
        { stdout := [], log := ["error reading response body: " ++ err.msg]
          exit := .returned, bodyClosed := true }
      | .ok body =>
        match w.parseJson body with
        | .error err =>
          { stdout := [], log := ["error reading quotes API - " ++ err.msg]
            exit := .returned, bodyClosed := true }
        | .ok q =>
          match q with
          | [] => { stdout := [], log := [], exit := .indexFault, bodyClosed := true }
          | quote :: _ =>
            { stdout := [formatQuote quote], log := [], exit := .returned
              bodyClosed := true }

/-! ## main -/

/-- The two channels of the `select`: `ticker.C` and `timer.C`. -/
inductive Signal where
  | tick
  | timeout
deriving DecidableEq, Repr

/-- Control state of `main`.  `Initial`: before the first `queryAPI`;
`Waiting`: blocked in the `select`; `Terminated`: `main` has returned;
`Exited`: the process was ended by `log.Fatalf`; `Faulted`: the process was
ended by a run-time fault. -/
inductive Phase where
  | Initial
  | Waiting
  | Terminated
  | Exited
  | Faulted
deriving DecidableEq, Repr

/-- State of the running process: control state, the local `config.Endpoint`,
the number of `queryAPI` calls made and the effects so far. -/
structure ProcState where
  phase : Phase
  endpoint : String
  calls : Nat
  requests : List String
  stdout : List String
  log : List String
deriving DecidableEq, Repr

/-- Control state after a call of `queryAPI` made by `main`. -/
def phaseAfter : Exit → Phase
  | .returned => .Waiting
  | .fatal => .Exited
  | .indexFault => .Faulted

/-- One call `queryAPI(config.Endpoint)` from `main`, followed by the debug
line `after` when the call returns. -/
def fetch (w : World) (s : ProcState) (after : String) : ProcState :=
  let r := queryAPI w s.calls s.endpoint
  { s with
    phase := phaseAfter r.exit
    calls := s.calls + 1
    requests := s.requests ++ [s.endpoint]
    stdout := s.stdout ++ r.stdout
    log := s.log ++ r.log ++ (if r.exit = .returned then [after] else []) }

/-- Source: `main`, up to and including the creation of the ticker and the
timer: the configuration is loaded and, on error, replaced by the default. -/
def boot (w : World) : ProcState :=
  let r := loadConfig w
  match r.err with
  | some err =>
    { phase := .Initial, endpoint := defaultEndpoint, calls := 0, requests := [], stdout := []
      log := r.log ++ ["error loading config: " ++ err.msg,
                       "using default endpoint: " ++ defaultEndpoint] }
  | none =>
    { phase := .Initial, endpoint := r.config.Endpoint, calls := 0, requests := [], stdout := []
      log := r.log }

/-- Source: `main`, the call `queryAPI(config.Endpoint)` before the loop. -/
def initialFetch (w : World) (s : ProcState) : ProcState :=
  fetch w s "Printing out of loop\n"

/-- Source: `main`, one iteration of `for { select { ... } }` serving `sig`.
Outside `Waiting` the process is not in the `select`, so nothing is served. -/
def step (w : World) (s : ProcState) (sig : Signal) : ProcState :=
  match s.phase with
  | .Waiting =>
    match sig with
    | .tick => fetch w s "Printing in loop\n"
    | .timeout =>
      { s with
        phase := .Terminated
        log := s.log ++ ["100 seconds have passed, stopping the loop"] }
  | _ => s

/-- The loop of `main` over the sequence of signals the `select` serves. -/
def run (w : World) (s : ProcState) (sigs : List Signal) : ProcState :=
  sigs.foldl (step w) s

/-- Source: `func main()`, given the signals served. -/
def main (w : World) (sigs : List Signal) : ProcState :=
  run w (initialFetch w (boot w)) sigs

/-! ## The two timers -/

/-- The runtime side of the `select`: whether a value is waiting in `ticker.C`
and in `timer.C` (both channels have capacity one), whether `main` is still in
its loop, and the signals served so far. -/
structure Chans where
  tickerC : Bool
  timerC : Bool
  looping : Bool
  served : List Signal
deriving DecidableEq, Repr

/-- One evaluation of the `select` statement.  With one channel ready that
case is served; with both ready the runtime picks either, here as told by
`tickFirst`; with none ready the loop stays blocked. -/
def selectOnce (tickFirst : Bool) (c : Chans) : Chans :=
  if c.looping then
    match c.tickerC, c.timerC with
    | true, true =>
      if tickFirst then { c with tickerC := false, served := c.served ++ [.tick] }
      else { c with timerC := false, looping := false, served := c.served ++ [.timeout] }
    | true, false => { c with tickerC := false, served := c.served ++ [.tick] }
    | false, true =>
      { c with timerC := false, looping := false, served := c.served ++ [.timeout] }
    | false, false => c
  else c

/-- Time unit `t`: the ticker delivers when `t` is a multiple of `interval`,
the timer delivers at `t = lifetime`, then the loop serves what is ready (at
most one value per channel, every fetch ending before the next time unit). -/
def elapse (interval lifetime : Nat) (choose : Nat → Bool) (c : Chans) (t : Nat) : Chans :=
  let c1 := { c with
    tickerC := c.tickerC || t % interval == 0
    timerC := c.timerC || t == lifetime }
  selectOnce (choose t) (selectOnce (choose t) c1)

/-- The channels after `t` time units, both timers started at time 0. -/
def clock (interval lifetime : Nat) (choose : Nat → Bool) : Nat → Chans
  | 0 => { tickerC := false, timerC := false, looping := true, served := [] }
  | t + 1 => elapse interval lifetime choose (clock interval lifetime choose t) (t + 1)

/-- The program run for `horizon` time units with a ticker of period
`interval` and a timer of `lifetime`. -/
def mainTimed (w : World) (interval lifetime : Nat) (choose : Nat → Bool) (horizon : Nat) :
    ProcState :=
  main w (clock interval lifetime choose horizon).served

/-! ## Concrete worlds used to instantiate the theorems -/

/-- The record of the specification example. -/
def homer : SimpsonsQuote :=
  { Quote := "D\x27oh!", Character := "Homer Simpson", Image := "", CharacterDirection := "" }

/-- No configuration directory; every request is answered 200 with one quote. -/
def homerWorld : World :=
  { environ := fun _ => none
    join := fun a b => a ++ "/" ++ b
    stat := fun _ => none
    readFile := fun _ => .ok ""
    parseToml := fun _ => .ok none
    httpGet := fun _ _ => .ok { StatusCode := 200, Status := "200 OK", Body := .ok "body" }
    parseJson := fun _ => .ok [homer] }

/-- The local `configPath` of `loadConfig`. -/
def configPath (w : World) : String :=
  w.join (Getenv w "SNAP_DATA") configFile

/-- A world whose `SNAP_DATA` directory holds a `config.toml`; `stat` and `toml`
are the outcomes of `os.Stat` and of decoding the file. -/
def snapWorld (stat : Option Error) (toml : Except Error (Option String)) : World :=
  { homerWorld with
    environ := fun k => if k = "SNAP_DATA" then some "/var/snap/quotes/common" else none
    stat := fun _ => stat
    readFile := fun _ => .ok "text"
    parseToml := fun _ => toml }

/-- The configuration cannot be located: `SNAP_DATA` is unset or empty, or
`os.Stat` on the path reports that the file does not exist. -/
def ConfigMissing (w : World) : Prop :=
  Getenv w "SNAP_DATA" = "" ∨
    ∃ e, w.stat (configPath w) = some e ∧ e.notExist = true

/-- The configuration file is there but `os.Stat` fails otherwise, or reading
it fails, or decoding it fails. -/
def ConfigLoadFails (w : World) : Prop :=
  Getenv w "SNAP_DATA" ≠ "" ∧
    ((∃ e, w.stat (configPath w) = some e ∧ e.notExist = false) ∨
     (w.stat (configPath w) = none ∧ ∃ e, w.readFile (configPath w) = .error e) ∨
     (w.stat (configPath w) = none ∧
        ∃ data e, w.readFile (configPath w) = .ok data ∧ w.parseToml data = .error e))

/-- The configuration file is there, is read as `data` and decodes without
error. -/
def ConfigReadable (w : World) (data : String) : Prop :=
  Getenv w "SNAP_DATA" ≠ "" ∧ w.stat (configPath w) = none ∧
    w.readFile (configPath w) = .ok data

/-- A world that answers the `n`-th request with `answers n` and decodes every
body as `json`. -/
def scriptWorld (answers : Nat → Except Error Response)
    (json : Except Error (List SimpsonsQuote)) : World :=
  { homerWorld with
    httpGet := fun n _ => answers n
    parseJson := fun _ => json }

/-- The fetch numbered `n` fails without a fatal status: the GET fails in
transport, or the body (read only for a status of at most 399) cannot be read,
or it does not decode as a sequence of quote records. -/
def FetchFails (w : World) (n : Nat) (ep : String) : Prop :=
  (∃ e, w.httpGet n ep = .error e) ∨
  (∃ resp e, w.httpGet n ep = .ok resp ∧ resp.StatusCode ≤ 399 ∧ resp.Body = .error e) ∨
  (∃ resp body e, w.httpGet n ep = .ok resp ∧ resp.StatusCode ≤ 399 ∧
      resp.Body = .ok body ∧ w.parseJson body = .error e)

/-- The fetch numbered `n` succeeds with status at most 399 and a body
decoding to a sequence whose first record is `quote`. -/
def FetchSucceeds (w : World) (n : Nat) (ep : String) (quote : SimpsonsQuote) : Prop :=
  ∃ resp body rest, w.httpGet n ep = .ok resp ∧ resp.StatusCode ≤ 399 ∧
    resp.Body = .ok body ∧ w.parseJson body = .ok (quote :: rest)

/-- Every request is answered with status 500. -/
def errorWorld : World :=
  scriptWorld
    (fun _ => .ok { StatusCode := 500, Status := "500 Internal Server Error", Body := .ok "" })
    (.ok [homer])

/-- The first request fails in transport, the later ones are answered 200 with
one quote. -/
def flakyWorld : World :=
  scriptWorld
    (fun n => if n = 0 then .error ⟨"connection refused", false⟩
      else .ok { StatusCode := 200, Status := "200 OK", Body := .ok "body" })
    (.ok [homer])

/-- Every request is answered 200 with a body decoding to no record. -/
def emptyWorld : World :=
  scriptWorld (fun _ => .ok { StatusCode := 200, Status := "200 OK", Body := .ok "[]" })
    (.ok [])

/-- Every call of `queryAPI` returns to its caller. -/
def AllReturn (w : World) : Prop :=
  ∀ n ep, (queryAPI w n ep).exit = .returned


/-! ## Auxiliary facts about `main` -/

theorem fetch_endpoint (w : World) (s : ProcState) (after : String) :
    (fetch w s after).endpoint = s.endpoint := rfl

theorem fetch_calls (w : World) (s : ProcState) (after : String) :
    (fetch w s after).calls = s.calls + 1 := rfl

theorem fetch_requests (w : World) (s : ProcState) (after : String) :
    (fetch w s after).requests = s.requests ++ [s.endpoint] := rfl

theorem fetch_stdout (w : World) (s : ProcState) (after : String) :
    (fetch w s after).stdout = s.stdout ++ (queryAPI w s.calls s.endpoint).stdout := rfl

theorem fetch_phase (w : World) (s : ProcState) (after : String) :
    (fetch w s after).phase = phaseAfter (queryAPI w s.calls s.endpoint).exit := rfl

theorem step_tick (w : World) (s : ProcState) (h : s.phase = .Waiting) :
    step w s .tick = fetch w s "Printing in loop\n" := by
  simp [step, h]

theorem step_timeout (w : World) (s : ProcState) (h : s.phase = .Waiting) :
    step w s .timeout =
      { s with phase := .Terminated
               log := s.log ++ ["100 seconds have passed, stopping the loop"] } := by
  simp [step, h]

theorem step_stuck (w : World) (s : ProcState) (sig : Signal) (h : s.phase ≠ .Waiting) :
    step w s sig = s := by
  unfold step
  split
  · contradiction
  · rfl

theorem run_nil (w : World) (s : ProcState) : run w s [] = s := rfl

theorem run_cons (w : World) (s : ProcState) (sig : Signal) (sigs : List Signal) :
    run w s (sig :: sigs) = run w (step w s sig) sigs := rfl

theorem run_append (w : World) (s : ProcState) (xs ys : List Signal) :
    run w s (xs ++ ys) = run w (run w s xs) ys := by
  simp [run, List.foldl_append]

theorem run_stuck (w : World) (s : ProcState) (sigs : List Signal) (h : s.phase ≠ .Waiting) :
    run w s sigs = s := by
  induction sigs with
  | nil => rfl
  | cons sig rest ih => rw [run_cons, step_stuck w s sig h, ih]

theorem step_endpoint (w : World) (s : ProcState) (sig : Signal) :
    (step w s sig).endpoint = s.endpoint := by
  by_cases h : s.phase = .Waiting
  · cases sig
    · rw [step_tick w s h, fetch_endpoint]
    · rw [step_timeout w s h]
  · rw [step_stuck w s sig h]

theorem run_endpoint (w : World) (s : ProcState) (sigs : List Signal) :
    (run w s sigs).endpoint = s.endpoint := by
  induction sigs generalizing s with
  | nil => rfl
  | cons sig rest ih => rw [run_cons, ih, step_endpoint]

theorem step_requests (w : World) (s : ProcState) (sig : Signal) :
    ∀ ep ∈ (step w s sig).requests, ep ∈ s.requests ∨ ep = s.endpoint := by
  intro ep hep
  by_cases h : s.phase = .Waiting
  · cases sig
    · rw [step_tick w s h, fetch_requests] at hep
      simpa using hep
    · rw [step_timeout w s h] at hep
      exact Or.inl hep
  · rw [step_stuck w s sig h] at hep
    exact Or.inl hep

theorem run_requests (w : World) (s : ProcState) (sigs : List Signal) :
    ∀ ep ∈ (run w s sigs).requests, ep ∈ s.requests ∨ ep = s.endpoint := by
  induction sigs generalizing s with
  | nil => intro ep hep; exact Or.inl hep
  | cons sig rest ih =>
    intro ep hep
    rw [run_cons] at hep
    rcases ih (step w s sig) ep hep with h | h
    · exact step_requests w s sig ep h
    · rw [step_endpoint] at h
      exact Or.inr h

/-- Every GET issued by `main` goes to the endpoint fixed at start-up. -/
theorem main_requests (w : World) (sigs : List Signal) :
    ∀ ep ∈ (main w sigs).requests, ep = (boot w).endpoint := by
  intro ep hep
  have hb : (boot w).requests = [] := by
    simp only [boot]
    cases (loadConfig w).err <;> rfl
  rcases run_requests w _ sigs ep hep with h | h
  · rw [initialFetch, fetch_requests, hb] at h
    simpa using h
  · rw [initialFetch, fetch_endpoint] at h
    exact h

theorem boot_calls (w : World) : (boot w).calls = 0 := by
  simp only [boot]
  cases (loadConfig w).err <;> rfl

theorem boot_phase (w : World) : (boot w).phase = .Initial := by
  simp only [boot]
  cases (loadConfig w).err <;> rfl

theorem boot_stdout (w : World) : (boot w).stdout = [] := by
  simp only [boot]
  cases (loadConfig w).err <;> rfl

theorem boot_endpoint_of_err (w : World) (h : (loadConfig w).err ≠ none) :
    (boot w).endpoint = defaultEndpoint := by
  simp only [boot]
  cases hE : (loadConfig w).err with
  | none => exact absurd hE h
  | some e => rfl

theorem boot_endpoint_of_ok (w : World) (h : (loadConfig w).err = none) :
    (boot w).endpoint = (loadConfig w).config.Endpoint := by
  simp only [boot, h]

/-! ## Configuration -/

theorem loadConfig_readable (w : World) (data : String) (h : ConfigReadable w data) :
    loadConfig w =
      { config := (tomlUnmarshal w data { Endpoint := "" }).1
        err := (tomlUnmarshal w data { Endpoint := "" }).2
        log := []
        ops := [.stat (configPath w), .readFile (configPath w), .unmarshal data] } := by
  obtain ⟨hdir, hstat, hread⟩ := h
  unfold configPath at hstat hread
  simp [loadConfig, hdir, hstat, hread, configPath]

/-- C1: when `SNAP_DATA` is unset or empty, or `config.toml` does not exist in
that directory, `loadConfig` returns the default endpoint with a nil error and
neither reads nor decodes any file. -/
theorem loadConfig_default_when_missing (w : World) (h : ConfigMissing w) :
    (loadConfig w).config = { Endpoint := defaultEndpoint } ∧
    (loadConfig w).err = none ∧
    (∀ op ∈ (loadConfig w).ops, ∀ x, op ≠ .readFile x ∧ op ≠ .unmarshal x) := by
  by_cases hdir : Getenv w "SNAP_DATA" = ""
  · simp [loadConfig, hdir]
  · rcases h with h | ⟨e, hstat, hne⟩
    · exact absurd h hdir
    · unfold configPath at hstat
      simp [loadConfig, hdir, hstat, hne]

theorem loadConfig_default_when_missing_witness :
    (ConfigMissing homerWorld ∧
      (loadConfig homerWorld).config = { Endpoint := defaultEndpoint } ∧
      (loadConfig homerWorld).err = none ∧
      (∀ op ∈ (loadConfig homerWorld).ops, ∀ x, op ≠ .readFile x ∧ op ≠ .unmarshal x)) ∧
    (ConfigMissing (snapWorld (some ⟨"no such file", true⟩) (.ok none)) ∧
      (loadConfig (snapWorld (some ⟨"no such file", true⟩) (.ok none))).config =
        { Endpoint := defaultEndpoint }) :=
  ⟨⟨Or.inl rfl, loadConfig_default_when_missing homerWorld (Or.inl rfl)⟩,
   ⟨Or.inr ⟨_, rfl, rfl⟩,
    (loadConfig_default_when_missing _ (Or.inr ⟨_, rfl, rfl⟩)).1⟩⟩

/-- C2: when `SNAP_DATA` is set and `config.toml` exists, is read and decodes
into the Config `c`, `loadConfig` returns exactly `c` with a nil error and
every request of `main` goes to `c.Endpoint` as it stands: the value of the
`endpoint` key when present, the empty string when the key is absent. -/
theorem loadConfig_returns_parsed (w : World) (data : String) (c : Config)
    (h : ConfigReadable w data)
    (hparse : tomlUnmarshal w data { Endpoint := "" } = (c, none)) :
    (loadConfig w).config = c ∧ (loadConfig w).err = none ∧
    (boot w).endpoint = c.Endpoint ∧
    (main w []).requests = [c.Endpoint] ∧
    (∀ sigs, ∀ ep ∈ (main w sigs).requests, ep = c.Endpoint) ∧
    (∀ x, w.parseToml data = .ok (some x) → c.Endpoint = x) ∧
    (w.parseToml data = .ok none → c.Endpoint = "") := by
  have hl := loadConfig_readable w data h
  rw [hparse] at hl
  have hc : (loadConfig w).config = c := by rw [hl]
  have he : (loadConfig w).err = none := by rw [hl]
  have hb : (boot w).endpoint = c.Endpoint := by
    rw [boot_endpoint_of_ok w he, hc]
  refine ⟨hc, he, hb, ?_, ?_, ?_, ?_⟩
  · have hr : (boot w).requests = [] := by
      simp only [boot]
      cases (loadConfig w).err <;> rfl
    simp [main, run, initialFetch, fetch_requests, hr, hb]
  · intro sigs ep hep
    rw [← hb]
    exact main_requests w sigs ep hep
  · intro x hx
    simp [tomlUnmarshal, hx] at hparse
    rw [← hparse]
  · intro hx
    simp [tomlUnmarshal, hx] at hparse
    rw [← hparse]

theorem loadConfig_returns_parsed_witness :
    ConfigReadable (snapWorld none (.ok (some "http://localhost:8080/quotes"))) "text" ∧
    (loadConfig (snapWorld none (.ok (some "http://localhost:8080/quotes")))).config =
      { Endpoint := "http://localhost:8080/quotes" } ∧
    (main (snapWorld none (.ok (some "http://localhost:8080/quotes"))) []).requests =
      ["http://localhost:8080/quotes"] :=
  have h := loadConfig_returns_parsed
    (snapWorld none (.ok (some "http://localhost:8080/quotes"))) "text"
    { Endpoint := "http://localhost:8080/quotes" } ⟨by decide, rfl, rfl⟩ rfl
  ⟨⟨by decide, rfl, rfl⟩, h.1, h.2.2.2.1⟩

/-- C3: when the file exists but `os.Stat`, reading or decoding fails,
`loadConfig` returns a non-nil error; and whenever `loadConfig` returns an
error, `main` continues with the default endpoint, which is the endpoint of
every `queryAPI` call. -/
theorem loadConfig_error_falls_back (w : World) :
    (ConfigLoadFails w → (loadConfig w).err ≠ none) ∧
    ((loadConfig w).err ≠ none →
      (boot w).endpoint = defaultEndpoint ∧
      (main w []).requests = [defaultEndpoint] ∧
      ∀ sigs, ∀ ep ∈ (main w sigs).requests, ep = defaultEndpoint) := by
  constructor
  · rintro ⟨hdir, h⟩
    rcases h with ⟨e, hstat, hne⟩ | ⟨hstat, e, hread⟩ | ⟨hstat, data, e, hread, hparse⟩
    · unfold configPath at hstat
      simp [loadConfig, hdir, hstat, hne]
    · unfold configPath at hstat hread
      simp [loadConfig, hdir, hstat, hread]
    · rw [loadConfig_readable w data ⟨hdir, hstat, hread⟩]
      simp [tomlUnmarshal, hparse]
  · intro herr
    have hb := boot_endpoint_of_err w herr
    refine ⟨hb, ?_, ?_⟩
    · have hr : (boot w).requests = [] := by
        simp only [boot]
        cases (loadConfig w).err <;> rfl
      simp [main, run, initialFetch, fetch_requests, hr, hb]
    · intro sigs ep hep
      rw [← hb]
      exact main_requests w sigs ep hep

theorem loadConfig_error_falls_back_witness :
    ConfigLoadFails (snapWorld none (.error ⟨"bad toml", false⟩)) ∧
    (loadConfig (snapWorld none (.error ⟨"bad toml", false⟩))).err ≠ none ∧
    (main (snapWorld none (.error ⟨"bad toml", false⟩)) []).requests = [defaultEndpoint] :=
  have hf : ConfigLoadFails (snapWorld none (.error ⟨"bad toml", false⟩)) :=
    ⟨by decide, Or.inr (Or.inr ⟨rfl, "text", ⟨"bad toml", false⟩, rfl, rfl⟩)⟩
  have h := loadConfig_error_falls_back (snapWorld none (.error ⟨"bad toml", false⟩))
  ⟨hf, h.1 hf, (h.2 (h.1 hf)).2.1⟩

/-- C4 (as stated, refuted): a configuration file that exists and decodes
with no key bound to `Endpoint` (a file without the `endpoint` key in any
spelling) makes `main` use the empty string, not the default endpoint. -/
theorem key_absent_not_default :
    ConfigReadable (snapWorld none (.ok none)) "text" ∧
    (snapWorld none (.ok none)).parseToml "text" = .ok none ∧
    (boot (snapWorld none (.ok none))).endpoint ≠ defaultEndpoint ∧
    (main (snapWorld none (.ok none)) []).requests = [""] := by
  refine ⟨⟨by decide, rfl, rfl⟩, rfl, by decide, by decide⟩

/-- C4 (amended): for a configuration file that exists and decodes without
error and in which the decoder binds no key to `Endpoint` (it holds neither
`endpoint` nor another spelling the decoder accepts for that field),
`loadConfig` returns the zero Config with a nil error and the endpoint used by
every request of `main` is the empty string, which differs from the default
endpoint. -/
theorem key_absent_uses_empty (w : World) (data : String)
    (h : ConfigReadable w data) (hkey : w.parseToml data = .ok none) :
    (loadConfig w).config = { Endpoint := "" } ∧ (loadConfig w).err = none ∧
    (boot w).endpoint = "" ∧ (boot w).endpoint ≠ defaultEndpoint ∧
    (main w []).requests = [""] ∧
    (∀ sigs, ∀ ep ∈ (main w sigs).requests, ep = "") := by
  have hl := loadConfig_readable w data h
  have hu : tomlUnmarshal w data { Endpoint := "" } = ({ Endpoint := "" }, none) := by
    simp [tomlUnmarshal, hkey]
  rw [hu] at hl
  have he : (loadConfig w).err = none := by rw [hl]
  have hb : (boot w).endpoint = "" := by
    rw [boot_endpoint_of_ok w he, hl]
  refine ⟨by rw [hl], he, hb, ?_, ?_, ?_⟩
  · rw [hb]
    decide
  · have hr : (boot w).requests = [] := by
      simp only [boot]
      cases (loadConfig w).err <;> rfl
    simp [main, run, initialFetch, fetch_requests, hr, hb]
  · intro sigs ep hep
    rw [← hb]
    exact main_requests w sigs ep hep

theorem key_absent_uses_empty_witness :
    ConfigReadable (snapWorld none (.ok none)) "text" ∧
    (loadConfig (snapWorld none (.ok none))).config = { Endpoint := "" } ∧
    (boot (snapWorld none (.ok none))).endpoint = "" :=
  have h := key_absent_uses_empty (snapWorld none (.ok none)) "text" ⟨by decide, rfl, rfl⟩ rfl
  ⟨⟨by decide, rfl, rfl⟩, h.1, h.2.2.1⟩

/-! ## queryAPI -/

theorem queryAPI_ok (w : World) (n : Nat) (ep : String) (resp : Response) (body : String)
    (q : List SimpsonsQuote) (hget : w.httpGet n ep = .ok resp) (hstatus : resp.StatusCode ≤ 399)
    (hbody : resp.Body = .ok body) (hjson : w.parseJson body = .ok q) :
    queryAPI w n ep =
      match q with
      | [] => { stdout := [], log := [], exit := .indexFault, bodyClosed := true }
      | quote :: _ =>
        { stdout := [formatQuote quote], log := [], exit := .returned, bodyClosed := true } := by
  have hs : ¬ resp.StatusCode > 399 := by omega
  cases q <;> simp [queryAPI, hget, hs, hbody, hjson]

theorem queryAPI_fails (w : World) (n : Nat) (ep : String) (h : FetchFails w n ep) :
    (queryAPI w n ep).stdout = [] ∧ (queryAPI w n ep).exit = .returned := by
  rcases h with ⟨e, hget⟩ | ⟨resp, e, hget, hstatus, hbody⟩ |
    ⟨resp, body, e, hget, hstatus, hbody, hjson⟩
  · simp [queryAPI, hget]
  · have hs : ¬ resp.StatusCode > 399 := by omega
    simp [queryAPI, hget, hs, hbody]
  · have hs : ¬ resp.StatusCode > 399 := by omega
    simp [queryAPI, hget, hs, hbody, hjson]

theorem queryAPI_succeeds (w : World) (n : Nat) (ep : String) (quote : SimpsonsQuote)
    (h : FetchSucceeds w n ep quote) :
    (queryAPI w n ep).stdout = [formatQuote quote] ∧ (queryAPI w n ep).exit = .returned := by
  obtain ⟨resp, body, rest, hget, hstatus, hbody, hjson⟩ := h
  rw [queryAPI_ok w n ep resp body _ hget hstatus hbody hjson]
  exact ⟨rfl, rfl⟩

theorem queryAPI_fatal (w : World) (n : Nat) (ep : String) (resp : Response)
    (hget : w.httpGet n ep = .ok resp) (hstatus : resp.StatusCode > 399) :
    (queryAPI w n ep).stdout = [] ∧ (queryAPI w n ep).exit = .fatal := by
  simp [queryAPI, hget, hstatus]

theorem queryAPI_not_fatal (w : World) (n : Nat) (ep : String) (resp : Response)
    (hget : w.httpGet n ep = .ok resp) (hstatus : ¬ resp.StatusCode > 399) :
    (queryAPI w n ep).exit ≠ .fatal := by
  cases hb : resp.Body with
  | error e => simp [queryAPI, hget, hstatus, hb]
  | ok body =>
    cases hj : w.parseJson body with
    | error e => simp [queryAPI, hget, hstatus, hb, hj]
    | ok q => cases q <;> simp [queryAPI, hget, hstatus, hb, hj]

theorem fetch_dead (w : World) (s : ProcState) (after : String) (sigs : List Signal)
    (h : (queryAPI w s.calls s.endpoint).exit ≠ .returned) :
    (fetch w s after).phase ≠ .Waiting ∧ run w (fetch w s after) sigs = fetch w s after := by
  have hp : (fetch w s after).phase ≠ .Waiting := by
    rw [fetch_phase]
    cases he : (queryAPI w s.calls s.endpoint).exit
    · exact absurd he h
    · simp [phaseAfter]
    · simp [phaseAfter]
  exact ⟨hp, run_stuck w _ sigs hp⟩

/-- C6: for a response obtained without transport error, `queryAPI` takes the
`log.Fatalf` branch exactly when the status code exceeds 399 (so for 500 and
400, not for 399 and below); on that branch nothing is printed, the process is
over and no later signal is served. -/
theorem queryAPI_fatal_iff_status (w : World) (n : Nat) (ep : String) (resp : Response)
    (hget : w.httpGet n ep = .ok resp) :
    ((queryAPI w n ep).exit = .fatal ↔ resp.StatusCode > 399) ∧
    (resp.StatusCode = 500 ∨ resp.StatusCode = 400 → (queryAPI w n ep).exit = .fatal) ∧
    (resp.StatusCode ≤ 399 → (queryAPI w n ep).exit ≠ .fatal) ∧
    (resp.StatusCode > 399 →
      (queryAPI w n ep).stdout = [] ∧
      (∀ s sigs, s.phase = .Waiting → s.calls = n → s.endpoint = ep →
        (step w s .tick).phase = .Exited ∧ (step w s .tick).stdout = s.stdout ∧
        run w s (.tick :: sigs) = step w s .tick) ∧
      (n = 0 → ep = (boot w).endpoint → ∀ sigs,
        (main w sigs).phase = .Exited ∧ (main w sigs).stdout = [] ∧
        (main w sigs).calls = 1)) := by
  have hiff : (queryAPI w n ep).exit = .fatal ↔ resp.StatusCode > 399 := by
    constructor
    · intro hf
      by_contra hs
      exact queryAPI_not_fatal w n ep resp hget hs hf
    · intro hs
      exact (queryAPI_fatal w n ep resp hget hs).2
  refine ⟨hiff, ?_, ?_, ?_⟩
  · intro h
    apply hiff.2
    rcases h with h | h <;> omega
  · intro h
    exact queryAPI_not_fatal w n ep resp hget (by omega)
  · intro hs
    obtain ⟨hout, hexit⟩ := queryAPI_fatal w n ep resp hget hs
    refine ⟨hout, ?_, ?_⟩
    · intro s sigs hw hc he
      subst hc he
      have hne : (queryAPI w s.calls s.endpoint).exit ≠ .returned := by
        rw [hexit]; decide
      rw [run_cons, step_tick w s hw]
      refine ⟨?_, ?_, (fetch_dead w s _ sigs hne).2⟩
      · rw [fetch_phase, hexit]; rfl
      · rw [fetch_stdout, hout]; simp
    · intro hn he sigs
      subst hn he
      have hq : queryAPI w (boot w).calls (boot w).endpoint = queryAPI w 0 (boot w).endpoint := by
        rw [boot_calls]
      have hne : (queryAPI w (boot w).calls (boot w).endpoint).exit ≠ .returned := by
        rw [hq, hexit]; decide
      have hrun : main w sigs = fetch w (boot w) "Printing out of loop\n" :=
        (fetch_dead w (boot w) _ sigs hne).2
      rw [hrun]
      refine ⟨?_, ?_, ?_⟩
      · rw [fetch_phase, hq, hexit]; rfl
      · rw [fetch_stdout, hq, hout, boot_stdout]; rfl
      · rw [fetch_calls, boot_calls]

theorem queryAPI_fatal_iff_status_witness :
    errorWorld.httpGet 0 defaultEndpoint =
      .ok { StatusCode := 500, Status := "500 Internal Server Error", Body := .ok "" } ∧
    (queryAPI errorWorld 0 defaultEndpoint).exit = .fatal ∧
    (main errorWorld [.tick, .tick, .timeout]).phase = .Exited ∧
    (main errorWorld [.tick, .tick, .timeout]).stdout = [] ∧
    (main errorWorld [.tick, .tick, .timeout]).calls = 1 :=
  have h := queryAPI_fatal_iff_status errorWorld 0 defaultEndpoint _ rfl
  ⟨rfl, h.1.2 (by decide), h.2.2.2 (by decide) |>.2.2 rfl rfl [.tick, .tick, .timeout]⟩

/-- C7: a fetch whose GET fails in transport, whose body cannot be read or
whose body does not decode prints nothing and returns; the loop stays in its
`select`, and when the next fetch succeeds it prints its one line. -/
theorem queryAPI_failure_is_skipped (w : World) (n : Nat) (ep : String)
    (hfail : FetchFails w n ep) :
    ((queryAPI w n ep).stdout = [] ∧ (queryAPI w n ep).exit = .returned) ∧
    (∀ s, s.phase = .Waiting → s.calls = n → s.endpoint = ep →
      (step w s .tick).phase = .Waiting ∧ (step w s .tick).stdout = s.stdout ∧
      (step w s .tick).calls = n + 1) ∧
    (n = 0 → ep = (boot w).endpoint →
      (main w []).phase = .Waiting ∧ (main w []).stdout = []) ∧
    (∀ quote, FetchSucceeds w (n + 1) ep quote →
      (queryAPI w (n + 1) ep).stdout =
        ["\"" ++ quote.Quote ++ "\" - " ++ quote.Character ++ "\n"] ∧
      (∀ s, s.phase = .Waiting → s.calls = n → s.endpoint = ep →
        (run w s [.tick, .tick]).phase = .Waiting ∧
        (run w s [.tick, .tick]).stdout =
          s.stdout ++ ["\"" ++ quote.Quote ++ "\" - " ++ quote.Character ++ "\n"]) ∧
      (n = 0 → ep = (boot w).endpoint →
        (main w [.tick]).phase = .Waiting ∧
        (main w [.tick]).stdout =
          ["\"" ++ quote.Quote ++ "\" - " ++ quote.Character ++ "\n"])) := by
  obtain ⟨hout, hexit⟩ := queryAPI_fails w n ep hfail
  have hstep : ∀ s : ProcState, s.phase = .Waiting → s.calls = n → s.endpoint = ep →
      (step w s .tick).phase = .Waiting ∧ (step w s .tick).stdout = s.stdout ∧
      (step w s .tick).calls = n + 1 ∧ (step w s .tick).endpoint = ep := by
    intro s hw hc he
    subst hc he
    rw [step_tick w s hw]
    refine ⟨?_, ?_, rfl, rfl⟩
    · rw [fetch_phase, hexit]; rfl
    · rw [fetch_stdout, hout]; simp
  have hinit : n = 0 → ep = (boot w).endpoint →
      (main w []).phase = .Waiting ∧ (main w []).stdout = [] ∧
      (main w []).calls = n + 1 ∧ (main w []).endpoint = ep := by
    intro hn he
    subst hn he
    have hq : queryAPI w (boot w).calls (boot w).endpoint = queryAPI w 0 (boot w).endpoint := by
      rw [boot_calls]
    have hm : main w [] = fetch w (boot w) "Printing out of loop\n" := rfl
    rw [hm]
    refine ⟨?_, ?_, ?_, rfl⟩
    · rw [fetch_phase, hq, hexit]; rfl
    · rw [fetch_stdout, hq, hout, boot_stdout]; rfl
    · rw [fetch_calls, boot_calls]
  refine ⟨⟨hout, hexit⟩, ?_, ?_, ?_⟩
  · intro s hw hc he
    obtain ⟨h1, h2, h3, _⟩ := hstep s hw hc he
    exact ⟨h1, h2, h3⟩
  · intro hn he
    obtain ⟨h1, h2, _, _⟩ := hinit hn he
    exact ⟨h1, h2⟩
  · intro quote hok
    obtain ⟨hout2, hexit2⟩ := queryAPI_succeeds w (n + 1) ep quote hok
    have hnext : ∀ t : ProcState, t.phase = .Waiting → t.calls = n + 1 → t.endpoint = ep →
        (step w t .tick).phase = .Waiting ∧
        (step w t .tick).stdout = t.stdout ++ [formatQuote quote] := by
      intro t hw hc he
      rw [step_tick w t hw]
      constructor
      · rw [fetch_phase, hc, he, hexit2]; rfl
      · rw [fetch_stdout, hc, he, hout2]
    refine ⟨hout2, ?_, ?_⟩
    · intro s hw hc he
      obtain ⟨h1, h2, h3, h4⟩ := hstep s hw hc he
      have := hnext (step w s .tick) h1 h3 h4
      rw [h2] at this
      exact this
    · intro hn he
      obtain ⟨h1, h2, h3, h4⟩ := hinit hn he
      have := hnext (main w []) h1 h3 h4
      rw [h2] at this
      exact this

theorem queryAPI_failure_is_skipped_witness :
    FetchFails flakyWorld 0 defaultEndpoint ∧
    FetchSucceeds flakyWorld 1 defaultEndpoint homer ∧
    (main flakyWorld []).stdout = [] ∧
    (main flakyWorld [.tick]).stdout = ["\"D\x27oh!\" - Homer Simpson\n"] :=
  have hf : FetchFails flakyWorld 0 defaultEndpoint := Or.inl ⟨_, rfl⟩
  have hs : FetchSucceeds flakyWorld 1 defaultEndpoint homer :=
    ⟨_, _, _, rfl, by decide, rfl, rfl⟩
  have h := queryAPI_failure_is_skipped flakyWorld 0 defaultEndpoint hf
  ⟨hf, hs, (h.2.2.1 rfl rfl).2, ((h.2.2.2 homer hs).2.2 rfl rfl).2⟩

/-- C8: a fetch with status at most 399 whose body decodes to a non-empty
sequence writes exactly one line: a double quote, the first record's quote
text, a double quote, " - ", the first record's character and a newline;
later records and the image and direction fields play no part.  For the quote
D'oh! of Homer Simpson the line is "D'oh!" - Homer Simpson. -/
theorem queryAPI_prints_first_quote (w : World) (n : Nat) (ep : String) (resp : Response)
    (body : String) (quote : SimpsonsQuote) (rest : List SimpsonsQuote)
    (hget : w.httpGet n ep = .ok resp) (hstatus : resp.StatusCode ≤ 399)
    (hbody : resp.Body = .ok body) (hjson : w.parseJson body = .ok (quote :: rest)) :
    (queryAPI w n ep).stdout = ["\"" ++ quote.Quote ++ "\" - " ++ quote.Character ++ "\n"] ∧
    (queryAPI w n ep).exit = .returned ∧
    (∀ (w2 : World) (rest2 : List SimpsonsQuote) (image direction : String),
      w2.httpGet n ep = .ok resp →
      w2.parseJson body =
        .ok ({ quote with Image := image, CharacterDirection := direction } :: rest2) →
      (queryAPI w2 n ep).stdout = (queryAPI w n ep).stdout) ∧
    (∀ s, s.phase = .Waiting → s.calls = n → s.endpoint = ep →
      (step w s .tick).stdout =
        s.stdout ++ ["\"" ++ quote.Quote ++ "\" - " ++ quote.Character ++ "\n"]) ∧
    (quote.Quote = "D\x27oh!" → quote.Character = "Homer Simpson" →
      (queryAPI w n ep).stdout = ["\"D\x27oh!\" - Homer Simpson\n"]) := by
  have hq := queryAPI_ok w n ep resp body _ hget hstatus hbody hjson
  have hout : (queryAPI w n ep).stdout = [formatQuote quote] := by rw [hq]
  refine ⟨hout, by rw [hq], ?_, ?_, ?_⟩
  · intro w2 rest2 image direction hget2 hjson2
    rw [queryAPI_ok w2 n ep resp body _ hget2 hstatus hbody hjson2, hout]
    rfl
  · intro s hw hc he
    subst hc he
    rw [step_tick w s hw, fetch_stdout, hout]
    rfl
  · intro h1 h2
    rw [hout, formatQuote, h1, h2]
    decide

theorem queryAPI_prints_first_quote_witness :
    homerWorld.httpGet 0 defaultEndpoint =
      .ok { StatusCode := 200, Status := "200 OK", Body := .ok "body" } ∧
    homerWorld.parseJson "body" = .ok [homer] ∧
    (queryAPI homerWorld 0 defaultEndpoint).stdout = ["\"D\x27oh!\" - Homer Simpson\n"] :=
  ⟨rfl, rfl,
   (queryAPI_prints_first_quote homerWorld 0 defaultEndpoint _ "body" homer [] rfl
      (by decide) rfl rfl).2.2.2.2 rfl rfl⟩

/-- C10: a fetch with status at most 399 whose body decodes without error to
the empty sequence faults on the index expression `q[0]`: nothing is printed,
`queryAPI` does not return, and the process is over (the cycle is not
skipped). -/
theorem queryAPI_empty_faults (w : World) (n : Nat) (ep : String) (resp : Response)
    (body : String) (hget : w.httpGet n ep = .ok resp) (hstatus : resp.StatusCode ≤ 399)
    (hbody : resp.Body = .ok body) (hjson : w.parseJson body = .ok []) :
    (queryAPI w n ep).stdout = [] ∧
    (queryAPI w n ep).exit = .indexFault ∧
    (queryAPI w n ep).exit ≠ .returned ∧
    (∀ s sigs, s.phase = .Waiting → s.calls = n → s.endpoint = ep →
      (step w s .tick).phase = .Faulted ∧ (step w s .tick).stdout = s.stdout ∧
      run w s (.tick :: sigs) = step w s .tick) ∧
    (n = 0 → ep = (boot w).endpoint → ∀ sigs,
      (main w sigs).phase = .Faulted ∧ (main w sigs).stdout = [] ∧
      (main w sigs).calls = 1) := by
  have hq := queryAPI_ok w n ep resp body _ hget hstatus hbody hjson
  have hout : (queryAPI w n ep).stdout = [] := by rw [hq]
  have hexit : (queryAPI w n ep).exit = .indexFault := by rw [hq]
  refine ⟨hout, hexit, by rw [hexit]; decide, ?_, ?_⟩
  · intro s sigs hw hc he
    subst hc he
    have hne : (queryAPI w s.calls s.endpoint).exit ≠ .returned := by
      rw [hexit]; decide
    rw [run_cons, step_tick w s hw]
    refine ⟨?_, ?_, (fetch_dead w s _ sigs hne).2⟩
    · rw [fetch_phase, hexit]; rfl
    · rw [fetch_stdout, hout]; simp
  · intro hn he sigs
    subst hn he
    have hc : queryAPI w (boot w).calls (boot w).endpoint = queryAPI w 0 (boot w).endpoint := by
      rw [boot_calls]
    have hne : (queryAPI w (boot w).calls (boot w).endpoint).exit ≠ .returned := by
      rw [hc, hexit]; decide
    have hrun : main w sigs = fetch w (boot w) "Printing out of loop\n" :=
      (fetch_dead w (boot w) _ sigs hne).2
    rw [hrun]
    refine ⟨?_, ?_, ?_⟩
    · rw [fetch_phase, hc, hexit]; rfl
    · rw [fetch_stdout, hc, hout, boot_stdout]; rfl
    · rw [fetch_calls, boot_calls]

theorem queryAPI_empty_faults_witness :
    emptyWorld.httpGet 0 defaultEndpoint =
      .ok { StatusCode := 200, Status := "200 OK", Body := .ok "[]" } ∧
    emptyWorld.parseJson "[]" = .ok [] ∧
    (queryAPI emptyWorld 0 defaultEndpoint).exit = .indexFault ∧
    (main emptyWorld [.tick, .timeout]).phase = .Faulted ∧
    (main emptyWorld [.tick, .timeout]).stdout = [] ∧
    (main emptyWorld [.tick, .timeout]).calls = 1 :=
  have h := queryAPI_empty_faults emptyWorld 0 defaultEndpoint _ "[]" rfl (by decide) rfl rfl
  ⟨rfl, rfl, h.2.1, h.2.2.2.2 rfl rfl [.tick, .timeout]⟩

/-! ## The loop of `main` -/

theorem run_calls (w : World) (h : AllReturn w) (sigs : List Signal) (s : ProcState)
    (hs : s.phase = .Waiting) :
    (run w s sigs).calls =
      s.calls + (sigs.takeWhile (fun x => x != Signal.timeout)).count Signal.tick := by
  induction sigs generalizing s with
  | nil => rfl
  | cons sig rest ih =>
    rw [run_cons]
    cases sig with
    | tick =>
      have hp : (step w s .tick).phase = .Waiting := by
        rw [step_tick w s hs, fetch_phase, h]; rfl
      have hc : (step w s .tick).calls = s.calls + 1 := by
        rw [step_tick w s hs, fetch_calls]
      have ht : (Signal.tick != Signal.timeout) = true := by decide
      rw [ih _ hp, hc]
      simp only [List.takeWhile, ht, List.count_cons_self]
      omega
    | timeout =>
      have hp : (step w s .timeout).phase ≠ .Waiting := by
        rw [step_timeout w s hs]; simp
      have hc : (step w s .timeout).calls = s.calls := by
        rw [step_timeout w s hs]
      have ht : ¬ (Signal.timeout != Signal.timeout) = true := by decide
      rw [run_stuck w _ rest hp, hc]
      simp [List.takeWhile]

theorem main_nil_waiting (w : World) (h : AllReturn w) :
    (main w []).phase = .Waiting ∧ (main w []).calls = 1 := by
  have hm : main w [] = fetch w (boot w) "Printing out of loop\n" := rfl
  rw [hm, fetch_phase, fetch_calls, h, boot_calls]
  exact ⟨rfl, rfl⟩

theorem main_calls (w : World) (h : AllReturn w) (sigs : List Signal) :
    (main w sigs).calls =
      1 + (sigs.takeWhile (fun x => x != Signal.timeout)).count Signal.tick := by
  have h0 := main_nil_waiting w h
  have hm : main w sigs = run w (main w []) sigs := rfl
  rw [hm, run_calls w h sigs _ h0.1, h0.2]

theorem run_to_timeout (w : World) (h : AllReturn w) (pre : List Signal) (s : ProcState)
    (hs : s.phase = .Waiting ∨ s.phase = .Terminated) :
    (run w s (pre ++ [.timeout])).phase = .Terminated := by
  induction pre generalizing s with
  | nil =>
    rcases hs with hs | hs
    · show (step w s .timeout).phase = .Terminated
      rw [step_timeout w s hs]
    · show (step w s .timeout).phase = .Terminated
      rw [step_stuck w s _ (by rw [hs]; decide), hs]
  | cons sig rest ih =>
    rw [List.cons_append, run_cons]
    apply ih
    rcases hs with hs | hs
    · cases sig with
      | tick =>
        left
        rw [step_tick w s hs, fetch_phase, h]; rfl
      | timeout =>
        right
        rw [step_timeout w s hs]
    · right
      rw [step_stuck w s _ (by rw [hs]; decide), hs]

/-- C9: with every fetch returning, `main` does one fetch before any signal is
served, one fetch for each tick served while waiting, and none on the timer
signal, which ends the loop; the number of fetches is 1 plus the number of
ticks served before the first timer signal, and after that signal nothing
changes any more. -/
theorem main_state_machine (w : World) (h : AllReturn w) :
    ((boot w).phase = .Initial ∧ (boot w).calls = 0 ∧
      (main w []).phase = .Waiting ∧ (main w []).calls = 1) ∧
    (∀ s, s.phase = .Waiting →
      (step w s .tick).phase = .Waiting ∧ (step w s .tick).calls = s.calls + 1) ∧
    (∀ s, s.phase = .Waiting →
      (step w s .timeout).phase = .Terminated ∧ (step w s .timeout).calls = s.calls ∧
      (step w s .timeout).requests = s.requests ∧ (step w s .timeout).stdout = s.stdout) ∧
    (∀ sigs, (main w sigs).calls =
      1 + (sigs.takeWhile (fun x => x != Signal.timeout)).count Signal.tick) ∧
    (∀ s sig, s.phase = .Terminated → step w s sig = s) ∧
    (∀ s sigs, s.phase = .Terminated → run w s sigs = s) ∧
    (∀ pre post,
      (main w (pre ++ [.timeout])).phase = .Terminated ∧
      main w (pre ++ .timeout :: post) = main w (pre ++ [.timeout])) := by
  have h0 := main_nil_waiting w h
  refine ⟨⟨boot_phase w, boot_calls w, h0.1, h0.2⟩, ?_, ?_, main_calls w h, ?_, ?_, ?_⟩
  · intro s hs
    rw [step_tick w s hs, fetch_phase, fetch_calls, h]
    exact ⟨rfl, rfl⟩
  · intro s hs
    rw [step_timeout w s hs]
    exact ⟨rfl, rfl, rfl, rfl⟩
  · intro s sig hs
    exact step_stuck w s sig (by rw [hs]; decide)
  · intro s sigs hs
    exact run_stuck w s sigs (by rw [hs]; decide)
  · intro pre post
    have ht : (main w (pre ++ [.timeout])).phase = .Terminated :=
      run_to_timeout w h pre _ (Or.inl h0.1)
    refine ⟨ht, ?_⟩
    have hsplit : pre ++ Signal.timeout :: post = (pre ++ [.timeout]) ++ post := by simp
    have hm : ∀ l, main w l = run w (main w []) l := fun _ => rfl
    rw [hsplit, hm, run_append, ← hm]
    exact run_stuck w _ post (by rw [ht]; decide)

theorem homerWorld_allReturn : AllReturn homerWorld := fun _ _ => rfl

theorem main_state_machine_witness :
    AllReturn homerWorld ∧
    (main homerWorld [.tick, .tick, .timeout, .tick]).calls = 3 ∧
    (main homerWorld [.tick, .tick, .timeout]).phase = .Terminated :=
  have h := main_state_machine homerWorld homerWorld_allReturn
  ⟨homerWorld_allReturn, h.2.2.2.1 [.tick, .tick, .timeout, .tick],
   (h.2.2.2.2.2.2 [.tick, .tick] []).1⟩

/-! ## The schedule of `main` -/

theorem elapse_stopped (interval lifetime : Nat) (choose : Nat → Bool) (c : Chans) (t : Nat)
    (h : c.looping = false) :
    (elapse interval lifetime choose c t).looping = false ∧
    (elapse interval lifetime choose c t).served = c.served := by
  simp [elapse, selectOnce, h]

theorem clock_stopped (interval lifetime : Nat) (choose : Nat → Bool) (t k : Nat)
    (h : (clock interval lifetime choose t).looping = false) :
    (clock interval lifetime choose (t + k)).looping = false ∧
    (clock interval lifetime choose (t + k)).served =
      (clock interval lifetime choose t).served := by
  induction k with
  | zero => exact ⟨h, rfl⟩
  | succ k ih =>
    have := elapse_stopped interval lifetime choose _ (t + k + 1) ih.1
    rw [← Nat.add_assoc]
    show (elapse interval lifetime choose _ (t + k + 1)).looping = false ∧ _
    exact ⟨this.1, this.2.trans ih.2⟩

theorem replicate_snoc (n : Nat) (x : Signal) :
    List.replicate (n + 1) x = List.replicate n x ++ [x] := by
  induction n with
  | zero => rfl
  | succ n ih => exact congrArg (List.cons x) ih

theorem elapse_waiting (interval lifetime : Nat) (choose : Nat → Bool) (l : List Signal)
    (t : Nat) :
    elapse interval lifetime choose
        { tickerC := false, timerC := false, looping := true, served := l } t =
      match t % interval == 0, t == lifetime with
      | false, false => { tickerC := false, timerC := false, looping := true, served := l }
      | true, false =>
        { tickerC := false, timerC := false, looping := true, served := l ++ [.tick] }
      | false, true =>
        { tickerC := false, timerC := false, looping := false, served := l ++ [.timeout] }
      | true, true =>
        if choose t then
          { tickerC := false, timerC := false, looping := false
            served := l ++ [.tick, .timeout] }
        else
          { tickerC := true, timerC := false, looping := false, served := l ++ [.timeout] } := by
  simp only [elapse, Bool.false_or]
  cases (t % interval == 0) <;> cases (t == lifetime) <;> cases choose t <;>
    simp [selectOnce]

theorem clock_before (choose : Nat → Bool) (t : Nat) (h : t < 100) :
    clock 10 100 choose t =
      { tickerC := false, timerC := false, looping := true
        served := List.replicate (t / 10) .tick } := by
  induction t with
  | zero => rfl
  | succ t ih =>
    have hne : (t + 1 == 100) = false := by
      rw [beq_eq_false_iff_ne]; omega
    show elapse 10 100 choose (clock 10 100 choose t) (t + 1) = _
    rw [ih (by omega), elapse_waiting, hne]
    by_cases hm : (t + 1) % 10 = 0
    · have hd : (t + 1) / 10 = t / 10 + 1 := by omega
      have hb : ((t + 1) % 10 == 0) = true := by rw [beq_iff_eq]; exact hm
      rw [hb, hd, replicate_snoc]
    · have hd : (t + 1) / 10 = t / 10 := by omega
      have hb : ((t + 1) % 10 == 0) = false := by rw [beq_eq_false_iff_ne]; exact hm
      rw [hb, hd]

theorem clock_at_lifetime (choose : Nat → Bool) :
    (clock 10 100 choose 100).looping = false ∧
    (clock 10 100 choose 100).served =
      List.replicate 9 .tick ++ (if choose 100 then [.tick, .timeout] else [.timeout]) := by
  show (elapse 10 100 choose (clock 10 100 choose 99) 100).looping = false ∧
    (elapse 10 100 choose (clock 10 100 choose 99) 100).served = _
  rw [clock_before choose 99 (by omega), elapse_waiting]
  cases hc : choose 100 <;> simp

/-- C5 (as stated, refuted): when the runtime serves the tick of time 100
before the timer signal of time 100, the program with fetches that all return
performs an 11th fetch. -/
theorem eleventh_fetch_when_tick_served_first :
    AllReturn homerWorld ∧
    (clock 10 100 (fun _ => true) 100).served = List.replicate 10 .tick ++ [.timeout] ∧
    (mainTimed homerWorld 10 100 (fun _ => true) 100).calls = 11 ∧
    (mainTimed homerWorld 10 100 (fun _ => true) 100).calls ≠ 10 := by
  have hs := (clock_at_lifetime (fun _ => true)).2
  have hc : (mainTimed homerWorld 10 100 (fun _ => true) 100).calls = 11 := by
    unfold mainTimed
    rw [hs]
    decide
  refine ⟨fun _ _ => rfl, ?_, hc, ?_⟩
  · rw [hs]; rfl
  · rw [hc]; decide

/-- C5 (amended): with a tick every 10 time units, the timer at 100, every
fetch returning before the next time unit, and the program observed at any
time from 100 on: `main` has returned and has performed 10 fetches (the
initial one and those for the ticks at 10, ..., 90) when at time 100 the timer
signal is served first, and 11 fetches when the tick of time 100 is served
first. -/
theorem fetch_count_by_order_at_lifetime (w : World) (h : AllReturn w) (choose : Nat → Bool)
    (horizon : Nat) (hh : 100 ≤ horizon) :
    (clock 10 100 choose horizon).served =
      List.replicate 9 .tick ++ (if choose 100 then [.tick, .timeout] else [.timeout]) ∧
    (mainTimed w 10 100 choose horizon).phase = .Terminated ∧
    (mainTimed w 10 100 choose horizon).calls = (if choose 100 then 11 else 10) ∧
    (choose 100 = false → (mainTimed w 10 100 choose horizon).calls = 10) := by
  obtain ⟨k, rfl⟩ : ∃ k, horizon = 100 + k := ⟨horizon - 100, by omega⟩
  have hl := clock_at_lifetime choose
  have hs : (clock 10 100 choose (100 + k)).served =
      List.replicate 9 .tick ++ (if choose 100 then [.tick, .timeout] else [.timeout]) :=
    (clock_stopped 10 100 choose 100 k hl.1).2.trans hl.2
  have hm : ∀ l, main w l = run w (main w []) l := fun _ => rfl
  have h0 := main_nil_waiting w h
  have hcalls : (mainTimed w 10 100 choose (100 + k)).calls = (if choose 100 then 11 else 10) := by
    unfold mainTimed
    rw [hs, main_calls w h]
    cases choose 100 <;> decide
  refine ⟨hs, ?_, hcalls, ?_⟩
  · unfold mainTimed
    rw [hs]
    cases choose 100
    · exact run_to_timeout w h (List.replicate 9 .tick) _ (Or.inl ((main_nil_waiting w h).1))
    · exact run_to_timeout w h (List.replicate 9 .tick ++ [.tick]) _
        (Or.inl ((main_nil_waiting w h).1))
  · intro hc
    rw [hcalls, hc]
    rfl

theorem fetch_count_by_order_at_lifetime_witness :
    AllReturn homerWorld ∧ 100 ≤ 250 ∧
    (mainTimed homerWorld 10 100 (fun _ => false) 250).calls = 10 ∧
    (mainTimed homerWorld 10 100 (fun _ => false) 250).phase = .Terminated :=
  have h := fetch_count_by_order_at_lifetime homerWorld (fun _ _ => rfl) (fun _ => false) 250
    (by decide)
  ⟨fun _ _ => rfl, by decide, h.2.2.2 rfl, h.2.1⟩

end Service
